import Mathlib

/-!
Verification development for the arxiv_scraper repository.

The development shallowly embeds the three source files:

* `src/evaluator.py` — the scoring pipeline: `evaluate_abstract` with its
  strict-JSON parse path, regex fallback path and exception path, and
  `evaluate_papers`, the batch loop over a CSV snapshot.
* `src/app.py` — the query engine behind `get_papers`: filter, sort,
  paginate over the loaded snapshot.
* `src/main.py` — the ingestion run: `get_date_range`, `save_results` and
  `main`, with its snapshot and watermark writes.

Modelling conventions: Python floats are modelled as rationals (`Rat`);
calendar dates are modelled as integer day numbers; a `pandas` DataFrame is
modelled as a list of row structures together with flags recording whether
the optional `score` / `reasoning` columns are present; missing cells (NaN)
are modelled with `Option`.  The external completion service and
`json.loads` are modelled as oracles enumerating their possible outcomes,
while the two fallback regexes of `evaluate_abstract` are modelled
concretely, character by character.  File-system side effects of `main.py`
are modelled as an explicit list of write effects.
-/

namespace ArxivScraper

/-- Result record produced by `evaluate_abstract`: mirrors the returned dict
with keys `score` and `reasoning`. -/
structure EvalResult where
  score : Rat
  reasoning : String
deriving DecidableEq

/-- ASCII fragment of the whitespace class of Python regular expressions
(space, tab, newline, carriage return, vertical tab, form feed); the
non-ASCII part of the class is not modelled. -/
def isSpaceCh (c : Char) : Bool :=
  c = ' ' || c = '\t' || c = '\n' || c = '\r' || c = Char.ofNat 11 || c = Char.ofNat 12

/-- Apostrophe character, written via its code point. -/
def aposCh : Char := Char.ofNat 39

/-- Quote class (double quote or apostrophe) used by both fallback regexes
of `evaluate_abstract`. -/
def isQuoteCh (c : Char) : Bool := c = '"' || c = aposCh

/-- Longest run of ASCII digits at the head of the input, with the rest. -/
def takeDigits : List Char → List Char × List Char
  | [] => ([], [])
  | c :: rest =>
    if c.isDigit then
      let p := takeDigits rest
      (c :: p.1, p.2)
    else ([], c :: rest)

/-- Capture group of the score regex: one or more digits optionally followed
by a dot and one or more digits, matched at the head of the input. -/
def matchNumberToken (cs : List Char) : Option (List Char) :=
  let p := takeDigits cs
  if p.1.isEmpty then none
  else
    match p.2 with
    | '.' :: r2 =>
      let q := takeDigits r2
      if q.1.isEmpty then some p.1 else some (p.1 ++ '.' :: q.1)
    | _ => some p.1

/-- Case-insensitive literal match at the head of the input (the pattern is
given in lowercase); returns the rest of the input on success. -/
def startsWithCI : List Char → List Char → Option (List Char)
  | [], cs => some cs
  | _ :: _, [] => none
  | p :: ps, c :: cs => if c.toLower = p then startsWithCI ps cs else none

/-- Matcher for the part of the score pattern of `evaluate_abstract` after
the literal `score`: an optional quote, optional whitespace, an optional
colon, optional whitespace, then the numeric capture group.  The greedy
backtracking of the Python pattern collapses to this deterministic scan
because the optional and starred pieces match pairwise disjoint character
classes. -/
def scoreTail (cs : List Char) : Option (List Char) :=
  let cs1 := match cs with
    | c :: r => if isQuoteCh c then r else cs
    | [] => []
  let cs2 := cs1.dropWhile isSpaceCh
  let cs3 := match cs2 with
    | c :: r => if c = ':' then r else cs2
    | [] => []
  let cs4 := cs3.dropWhile isSpaceCh
  matchNumberToken cs4

/-- Search of the score pattern over the reply text, as in the fallback
branch of `evaluate_abstract`: every start position is tried left to right
and the first successful capture group is returned. -/
def score_search : List Char → Option (List Char)
  | [] => none
  | c :: rest =>
    match startsWithCI ['s', 'c', 'o', 'r', 'e'] (c :: rest) with
    | some tl =>
      match scoreTail tl with
      | some g => some g
      | none => score_search rest
    | none => score_search rest

/-- Lazy capture of the reasoning pattern: the characters up to the first
quote character, or `none` when no quote follows (the DOTALL flag lets the
capture run across newlines). -/
def scanToQuote : List Char → Option (List Char)
  | [] => none
  | c :: rest =>
    if isQuoteCh c then some []
    else (scanToQuote rest).map (fun g => c :: g)

/-- Matcher for the part of the reasoning pattern after an already consumed
optional quote: optional whitespace, an optional colon, optional whitespace,
a required opening quote, then the lazy capture up to the next quote.  The
trailing optional closing brace of the pattern always matches and needs no
model. -/
def reasoningTailCore (cs : List Char) : Option (List Char) :=
  let cs2 := cs.dropWhile isSpaceCh
  let cs3 := match cs2 with
    | c :: r => if c = ':' then r else cs2
    | [] => []
  let cs4 := cs3.dropWhile isSpaceCh
  match cs4 with
  | c :: r => if isQuoteCh c then scanToQuote r else none
  | [] => none

/-- Matcher for the reasoning pattern after the literal `reasoning`,
including the one genuine backtrack of the pattern: a leading quote is first
consumed greedily, and on failure of the remainder the quote is retried as
the required opening quote. -/
def reasoningTail (cs : List Char) : Option (List Char) :=
  match cs with
  | c :: r =>
    if isQuoteCh c then
      match reasoningTailCore r with
      | some g => some g
      | none => reasoningTailCore cs
    else reasoningTailCore cs
  | [] => reasoningTailCore cs

/-- Search of the reasoning pattern over the reply text, trying every start
position left to right. -/
def reasoning_search : List Char → Option (List Char)
  | [] => none
  | c :: rest =>
    match startsWithCI ['r', 'e', 'a', 's', 'o', 'n', 'i', 'n', 'g'] (c :: rest) with
    | some tl =>
      match reasoningTail tl with
      | some g => some g
      | none => reasoning_search rest
    | none => reasoning_search rest

/-- Value of a digit string. -/
def digitsToNat (ds : List Char) : Nat :=
  ds.foldl (fun n c => 10 * n + (c.toNat - 48)) 0

/-- Conversion of a matched numeric token (digits optionally followed by a
dot and digits) to a rational, modelling the float conversion applied to the
capture group. -/
def parseNumRat (g : List Char) : Rat :=
  let p := g.span (fun c => c != '.')
  match p.2 with
  | _ :: fp => (digitsToNat p.1 : Rat) + (digitsToNat fp : Rat) / ((10 : Rat) ^ fp.length)
  | [] => (digitsToNat p.1 : Rat)

/-- Clamp applied by `evaluate_abstract` after parsing a score. -/
def clampScore (q : Rat) : Rat := max 1 (min 10 q)

/-- Fallback pattern-extraction path of `evaluate_abstract`, taken when the
reply body is not valid JSON: the score token is extracted by regex with
default 0 and then clamped, and the reasoning string is extracted by regex
with a fixed placeholder default. -/
def fallback_parse (text : String) : EvalResult :=
  let score := match score_search text.data with
    | some g => parseNumRat g
    | none => 0
  { score := clampScore score
    reasoning := match reasoning_search text.data with
      | some g => String.mk g
      | none => "Unable to parse reasoning" }

/-- Outcome of reading the `score` entry of a successfully decoded JSON
dict and converting it with float: the entry may be missing (default 0), a
number (booleans included), a string that parses as a float, or a value on
which the float conversion raises. -/
inductive ScoreField where
  | missing
  | num (q : Rat)
  | strOk (q : Rat)
  | bad (err : String)
deriving DecidableEq

/-- Outcome of one completion call as seen by `evaluate_abstract`: the call
itself may raise; the reply body may decode to a JSON dict, decode to a
non-dict value (on which attribute access raises), or fail to decode, in
which case the raw text is handed to the fallback regexes. -/
inductive Reply where
  | raised (err : String)
  | decoded (sf : ScoreField) (rf : Option String)
  | notDict (err : String)
  | undecodable (text : String)
deriving DecidableEq

/-- Model of `evaluate_abstract` of `src/evaluator.py`, as a function of the
outcome of the completion call.  Any exception — from the call itself, from
float conversion of the score entry, or from attribute access on a non-dict
decode — is caught by the outer handler, which returns score 0 with the
error text embedded in the reasoning. -/
def evaluate_abstract : Reply → EvalResult
  | .raised err => { score := 0, reasoning := "Error: " ++ err }
  | .decoded sf rf =>
    match sf with
    | .missing => { score := clampScore 0, reasoning := rf.getD "No reasoning provided" }
    | .num q => { score := clampScore q, reasoning := rf.getD "No reasoning provided" }
    | .strOk q => { score := clampScore q, reasoning := rf.getD "No reasoning provided" }
    | .bad err => { score := 0, reasoning := "Error: " ++ err }
  | .notDict err => { score := 0, reasoning := "Error: " ++ err }
  | .undecodable text => fallback_parse text

/-- Row of the evaluator CSV snapshot.  Only the fields the batch loop
touches are modelled; a missing abstract cell (NaN) is `none`. -/
structure EvalRow where
  id : String
  title : String
  abstractText : Option String
  score : Option Rat
  reasoning : Option String
deriving DecidableEq

/-- Loaded evaluator snapshot: rows plus presence flags of the optional
score and reasoning columns. -/
structure EvalFrame where
  rows : List EvalRow
  hasScoreCol : Bool
  hasReasoningCol : Bool
deriving DecidableEq

/-- Column-adding step of `evaluate_papers`: a missing score column is
created filled with 0.0 and a missing reasoning column filled with the empty
string. -/
def addMissingCols (f : EvalFrame) : List EvalRow :=
  f.rows.map fun r =>
    { r with
      score := if f.hasScoreCol then r.score else some 0
      reasoning := if f.hasReasoningCol then r.reasoning else some "" }

/-- Blank-string test of the skip condition of the batch loop: a string is
skipped when stripping whitespace leaves nothing, that is, when every
character is whitespace (the empty string included). -/
def isBlankStr (s : String) : Bool := s.data.all isSpaceCh

/-- Body of one iteration of the row loop of `evaluate_papers`: a row with a
missing or whitespace-only abstract is skipped, any other row has its score
and reasoning cells overwritten with the result of `evaluate_abstract`.  The
external completion outcome for each call is supplied by the oracle `reply`,
a function of the row index and the abstract text. -/
def evalStep (reply : Nat → String → Reply) (i : Nat) (r : EvalRow) : EvalRow :=
  match r.abstractText with
  | none => r
  | some a =>
    if isBlankStr a then r
    else
      let res := evaluate_abstract (reply i a)
      { r with score := some res.score, reasoning := some res.reasoning }

/-- Row loop of `evaluate_papers` over the truncated frame, carrying the
positional row index. -/
def evalLoop (reply : Nat → String → Reply) : Nat → List EvalRow → List EvalRow
  | _, [] => []
  | i, r :: rest => evalStep reply i r :: evalLoop reply (i + 1) rest

/-- Model of `evaluate_papers` of `src/evaluator.py`: the frame is truncated
to its first `numRows` rows when an integer row count is given (`none`
models both the star argument and an unparsable row count), missing columns
are added, every remaining row is processed by the row loop, and the
resulting rows are the frame persisted to the output CSV and returned. -/
def evaluate_papers (f : EvalFrame) (numRows : Option Nat)
    (reply : Nat → String → Reply) : List EvalRow :=
  let rows := match numRows with
    | some n => f.rows.take n
    | none => f.rows
  evalLoop reply 0
    (addMissingCols { rows := rows, hasScoreCol := f.hasScoreCol, hasReasoningCol := f.hasReasoningCol })

/-- Row of the snapshot loaded by the query API of `src/app.py`.  Cells of
object columns may be missing (NaN), modelled with `Option`. -/
structure QRow where
  id : String
  title : Option String
  categories : Option String
  abstractText : Option String
  doi : Option String
  created : Option String
  updated : Option String
  authors : Option String
  score : Option Rat
  reasoning : Option String
deriving DecidableEq

/-- Loaded query snapshot: rows plus the presence flag of the optional score
column (the eight base columns written by the scraper are always present). -/
structure QFrame where
  rows : List QRow
  hasScoreCol : Bool
deriving DecidableEq

/-- Lowercased characters of a string. -/
def lowerChars (s : String) : List Char := s.data.map Char.toLower

/-- Literal list-prefix test. -/
def startsWithList : List Char → List Char → Bool
  | [], _ => true
  | _ :: _, [] => false
  | a :: as, b :: bs => a = b && startsWithList as bs

/-- Literal substring test, modelling the string-contains column test on a
plain-text pattern (regex metacharacters of the pandas variant are not
modelled). -/
def containsSub (needle : List Char) : List Char → Bool
  | [] => needle.isEmpty
  | c :: rest => startsWithList needle (c :: rest) || containsSub needle rest

/-- Case-insensitive substring test on an optional cell, false on a missing
cell (the na=False argument of the source). -/
def fieldContainsCI (needle : List Char) : Option String → Bool
  | none => false
  | some s => containsSub needle (lowerChars s)

/-- Search filter of `get_papers`: an absent or empty search string leaves
the frame unfiltered, otherwise a row passes when the lowercased search
string occurs in its title, abstract or authors cell. -/
def applySearch (q : Option String) (l : List QRow) : List QRow :=
  match q with
  | none => l
  | some s =>
    if s = "" then l
    else
      let nd := lowerChars s
      l.filter fun r =>
        fieldContainsCI nd r.title || fieldContainsCI nd r.abstractText
          || fieldContainsCI nd r.authors

/-- Category filter of `get_papers`: case-sensitive substring match against
the categories cell, false on a missing cell. -/
def applyCategory (c : Option String) (l : List QRow) : List QRow :=
  match c with
  | none => l
  | some s =>
    if s = "" then l
    else
      l.filter fun r =>
        match r.categories with
        | none => false
        | some cs => containsSub s.data cs.data

/-- Minimum-score filter of `get_papers`: applied only when a bound is given
and the score column exists; a missing score cell fails the comparison and
is dropped. -/
def applyMinScore (hasS : Bool) (mn : Option Rat) (l : List QRow) : List QRow :=
  match mn with
  | none => l
  | some m =>
    if hasS then
      l.filter fun r =>
        match r.score with
        | some q => decide (m ≤ q)
        | none => false
    else l

/-- Maximum-score filter of `get_papers`, symmetric to the minimum filter. -/
def applyMaxScore (hasS : Bool) (mx : Option Rat) (l : List QRow) : List QRow :=
  match mx with
  | none => l
  | some m =>
    if hasS then
      l.filter fun r =>
        match r.score with
        | some q => decide (q ≤ m)
        | none => false
    else l

/-- Sort field of `get_papers`, validated by the route to these four. -/
inductive SortBy where
  | created | updated | score | title
deriving DecidableEq

/-- Sort direction of `get_papers`. -/
inductive SortOrder where
  | asc | desc
deriving DecidableEq

/-- Sort key: a string cell or a numeric cell, depending on the sort field. -/
inductive SKey where
  | strK (v : String)
  | ratK (v : Rat)
deriving DecidableEq

/-- Order on present sort keys (keys of one sort field always lie in one
constructor). -/
def keyLe : SKey → SKey → Bool
  | .strK a, .strK b => !(decide (b < a))
  | .ratK a, .ratK b => decide (a ≤ b)
  | .strK _, .ratK _ => true
  | .ratK _, .strK _ => false

/-- Sort key of a row for a sort field, `none` on a missing cell. -/
def keyOf : SortBy → QRow → Option SKey
  | .created, r => r.created.map .strK
  | .updated, r => r.updated.map .strK
  | .score, r => r.score.map .ratK
  | .title, r => r.title.map .strK

/-- Row comparator of the sort step: present keys are ordered in the
requested direction and rows with a missing key come after every row with a
present key, regardless of direction (na_position last). -/
def rowLe (sb : SortBy) (asc : Bool) (a b : QRow) : Bool :=
  match keyOf sb a, keyOf sb b with
  | some x, some y => if asc then keyLe x y else keyLe y x
  | some _, none => true
  | none, some _ => false
  | none, none => true

/-- Ordered insertion for the sort model. -/
def insertSorted (le : QRow → QRow → Bool) (a : QRow) : List QRow → List QRow
  | [] => [a]
  | b :: l => if le a b then a :: b :: l else b :: insertSorted le a l

/-- Comparison sort of the rows by a comparator; the source sort is a
comparison sort as well, so the two agree up to the order of ties, which no
claim depends on. -/
def sortRows (le : QRow → QRow → Bool) : List QRow → List QRow
  | [] => []
  | a :: l => insertSorted le a (sortRows le l)

/-- Sort step of `get_papers`: skipped when the sort field is the score
column and that column is absent, otherwise the rows are sorted by the row
comparator. -/
def applySort (hasS : Bool) (sb : SortBy) (so : SortOrder) (l : List QRow) : List QRow :=
  if sb = SortBy.score && !hasS then l
  else sortRows (rowLe sb (decide (so = SortOrder.asc))) l

/-- Validated query parameters of the papers route. -/
structure QueryArgs where
  page : Nat
  perPage : Nat
  search : Option String
  category : Option String
  minScore : Option Rat
  maxScore : Option Rat
  sortBy : SortBy
  sortOrder : SortOrder
deriving DecidableEq

/-- Filtered and sorted frame of `get_papers`, before pagination. -/
def matchingRows (f : QFrame) (a : QueryArgs) : List QRow :=
  applySort f.hasScoreCol a.sortBy a.sortOrder
    (applyMaxScore f.hasScoreCol a.maxScore
      (applyMinScore f.hasScoreCol a.minScore
        (applyCategory a.category
          (applySearch a.search f.rows))))

/-- Response of the papers route. -/
structure PapersResponse where
  papers : List QRow
  total : Nat
  page : Nat
  perPage : Nat
  totalPages : Nat
deriving DecidableEq

/-- Model of `get_papers` of `src/app.py`: an empty frame short-circuits to
an empty response, otherwise the frame is filtered, sorted and sliced, with
total page count `(total + perPage - 1) / perPage` and the 1-indexed page
slice starting at `(page - 1) * perPage`. -/
def get_papers (f : QFrame) (a : QueryArgs) : PapersResponse :=
  if f.rows.isEmpty then
    { papers := [], total := 0, page := a.page, perPage := a.perPage, totalPages := 0 }
  else
    let df := matchingRows f a
    let total := df.length
    { papers := (df.drop ((a.page - 1) * a.perPage)).take a.perPage
      total := total
      page := a.page
      perPage := a.perPage
      totalPages := (total + a.perPage - 1) / a.perPage }

/-- Raw paper record returned by the scrape of one category, with the column
tuple of `save_results`. -/
structure RawPaper where
  id : String
  title : String
  categories : String
  abstractText : String
  doi : String
  created : String
  updated : String
  authors : String
deriving DecidableEq

/-- File write performed by an ingestion run. -/
inductive Effect where
  | snapshotCsvWrite (rows : List RawPaper)
  | snapshotJsonWrite (rows : List RawPaper)
  | watermarkWrite (d : Int)
deriving DecidableEq

/-- Lookback bound of the scraper (days). -/
def MAX_DAYS : Int := 7

/-- Category tags scraped by one run. -/
def CATEGORIES : List String := ["cs", "eess", "stat"]

/-- Model of `get_date_range` of `src/main.py` over dates as integer day
numbers: the watermark read from the last-update file (`none` covers both a
missing and an unreadable file, which default to seven days back) is clamped
to the lookback bound, and the window runs up to today. -/
def get_date_range (watermark : Option Int) (today : Int) : Int × Int :=
  let last_update := match watermark with
    | some w => w
    | none => today - MAX_DAYS
  (max last_update (today - MAX_DAYS), today)

/-- Model of `save_results` of `src/main.py` as its write effects: an empty
record list is only logged and nothing is written, otherwise the CSV
snapshot and its JSON companion are each written once. -/
def save_results (all_papers : List RawPaper) : List Effect :=
  if all_papers.isEmpty then []
  else [.snapshotCsvWrite all_papers, .snapshotJsonWrite all_papers]

/-- Model of `main` of `src/main.py` as its write effects: the date range is
computed, each category is scraped over it (the oracle `fetch` returns the
records of one category, with an empty list covering a failed scrape), the
concatenated results are saved, and the watermark is then written with the
end of the window, unconditionally. -/
def mainRun (fetch : String → Int → Int → List RawPaper) (watermark : Option Int)
    (today : Int) : List Effect :=
  let r := get_date_range watermark today
  let all_papers := (CATEGORIES.map fun c => fetch c r.1 r.2).flatten
  save_results all_papers ++ [.watermarkWrite r.2]

/-! Helper lemmas about the evaluator model. -/

theorem clampScore_bounds (q : Rat) : 1 ≤ clampScore q ∧ clampScore q ≤ 10 := by
  unfold clampScore
  refine ⟨le_max_left 1 _, max_le (by norm_num) (min_le_left 10 q)⟩

theorem evalStep_id (rep : Nat → String → Reply) (i : Nat) (r : EvalRow) :
    (evalStep rep i r).id = r.id := by
  unfold evalStep
  rcases hab : r.abstractText with _ | a
  · rfl
  · cases h : isBlankStr a <;> simp [h]

theorem evalLoop_length (rep : Nat → String → Reply) (i : Nat) (l : List EvalRow) :
    (evalLoop rep i l).length = l.length := by
  induction l generalizing i with
  | nil => rfl
  | cons r rest ih => simp [evalLoop, ih]

theorem evalLoop_map_id (rep : Nat → String → Reply) (i : Nat) (l : List EvalRow) :
    (evalLoop rep i l).map EvalRow.id = l.map EvalRow.id := by
  induction l generalizing i with
  | nil => rfl
  | cons r rest ih => simp [evalLoop, evalStep_id, ih]

theorem addMissingCols_length (f : EvalFrame) : (addMissingCols f).length = f.rows.length := by
  simp [addMissingCols]

theorem addMissingCols_map_id (f : EvalFrame) :
    (addMissingCols f).map EvalRow.id = f.rows.map EvalRow.id := by
  unfold addMissingCols
  rw [List.map_map]
  exact List.map_congr_left fun r _ => rfl

theorem addMissingCols_true (l : List EvalRow) :
    addMissingCols { rows := l, hasScoreCol := true, hasReasoningCol := true } = l := by
  show List.map (fun r => r) l = l
  exact List.map_id l

theorem evaluate_papers_length (f : EvalFrame) (n : Nat) (rep : Nat → String → Reply) :
    (evaluate_papers f (some n) rep).length = min n f.rows.length := by
  unfold evaluate_papers
  rw [evalLoop_length, addMissingCols_length]
  exact List.length_take n f.rows

theorem evaluate_papers_map_id (f : EvalFrame) (n : Nat) (rep : Nat → String → Reply) :
    (evaluate_papers f (some n) rep).map EvalRow.id = (f.rows.take n).map EvalRow.id := by
  unfold evaluate_papers
  rw [evalLoop_map_id, addMissingCols_map_id]

theorem evalStep_idem (rep : Nat → String → Reply) (i : Nat) (r : EvalRow) :
    evalStep rep i (evalStep rep i r) = evalStep rep i r := by
  rcases hab : r.abstractText with _ | a
  · simp [evalStep, hab]
  · cases ht : isBlankStr a
    · simp [evalStep, hab, ht]
    · simp [evalStep, hab, ht]

theorem evalLoop_idem (rep : Nat → String → Reply) (i : Nat) (l : List EvalRow) :
    evalLoop rep i (evalLoop rep i l) = evalLoop rep i l := by
  induction l generalizing i with
  | nil => rfl
  | cons r rest ih => simp [evalLoop, evalStep_idem, ih]

/-! Concrete frames and completion oracles used by the evaluator claims. -/

/-- Completion oracle whose calls always yield a well-formed score 7 reply. -/
def oracle7 : Nat → String → Reply := fun _ _ => .decoded (.num 7) (some "plain fit")

/-- Completion oracle whose calls always yield a well-formed score 4 reply. -/
def oracle4 : Nat → String → Reply := fun _ _ => .decoded (.num 4) (some "rescored")

/-- Completion oracle whose calls always yield a well-formed score 3 reply. -/
def oracle3 : Nat → String → Reply := fun _ _ => .decoded (.num 3) (some "changed")

/-- Unscored row with a nonempty abstract. -/
def unscoredRow : EvalRow :=
  { id := "p", title := "t", abstractText := some "an abstract", score := some 0, reasoning := some "" }

/-- Snapshot of 25 unscored papers. -/
def f25 : EvalFrame :=
  { rows := List.replicate 25 unscoredRow, hasScoreCol := true, hasReasoningCol := true }

/-- Row lacking a score annotation: score cell absent or at most 0. -/
def isUnscored (r : EvalRow) : Bool :=
  match r.score with
  | none => true
  | some q => decide (q ≤ 0)

/-- Three-row snapshot with distinct identifiers. -/
def f3 : EvalFrame :=
  { rows :=
      [{ id := "a", title := "t", abstractText := some "x", score := some 0, reasoning := some "" },
       { id := "b", title := "t", abstractText := some "x", score := some 0, reasoning := some "" },
       { id := "c", title := "t", abstractText := some "x", score := some 0, reasoning := some "" }],
    hasScoreCol := true, hasReasoningCol := true }

/-- One-row snapshot used by the rescoring counterexample. -/
def oneRowFrame : EvalFrame :=
  { rows := [unscoredRow], hasScoreCol := true, hasReasoningCol := true }

/-- Reply text of the fallback-parser scenario, with its apostrophes built
from code points. -/
def c9text : String :=
  "I" ++ String.singleton aposCh ++ "d say score: 7, reasoning: "
    ++ String.singleton aposCh ++ "Strong market fit" ++ String.singleton aposCh

/-! Claim theorems about the evaluator. -/

/-- C1: for every outcome of the completion call — a decoded JSON reply,
malformed text handed to the fallback regexes, or an exception — the score
produced by evaluate_abstract is either exactly 0 (the unscored or error
sentinel, returned unclamped) or lies in the closed interval from 1 to 10. -/
theorem evaluate_abstract_score_range (r : Reply) :
    (evaluate_abstract r).score = 0
      ∨ (1 ≤ (evaluate_abstract r).score ∧ (evaluate_abstract r).score ≤ 10) := by
  cases r with
  | raised err => exact Or.inl rfl
  | notDict err => exact Or.inl rfl
  | undecodable text => exact Or.inr (clampScore_bounds _)
  | decoded sf rf =>
    cases sf with
    | missing => exact Or.inr (clampScore_bounds _)
    | num q => exact Or.inr (clampScore_bounds _)
    | strOk q => exact Or.inr (clampScore_bounds _)
    | bad err => exact Or.inl rfl

/-- C2 counterexample: on a snapshot of 25 unscored papers, a batch run with
limit 5 does not leave 20 unscored rows in the persisted output — the
output consists of the 5 evaluated rows only, so the claimed behaviour of
the batch is false at this input. -/
theorem evaluate_papers_no_skip_cex :
    ¬ ((evaluate_papers f25 (some 5) oracle7).filter isUnscored).length = 20 := by
  decide

/-- C2 amended: evaluate_papers with an integer limit processes the first
min(limit, size) rows of the snapshot in order, regardless of existing
scores, and persists only those rows; on the 25-unscored-paper snapshot a
call with limit 5 outputs exactly the 5 evaluated rows with none left
unscored, and a subsequent call with limit 30 on that output re-evaluates
those same 5 rows (overwriting their scores with the new replies) rather
than scoring the remaining 20. -/
theorem evaluate_papers_takes_head :
    (∀ (f : EvalFrame) (n : Nat) (rep : Nat → String → Reply),
        (evaluate_papers f (some n) rep).length = min n f.rows.length)
    ∧ (evaluate_papers f25 (some 5) oracle7).length = 5
    ∧ ((evaluate_papers f25 (some 5) oracle7).filter isUnscored).length = 0
    ∧ (evaluate_papers
          { rows := evaluate_papers f25 (some 5) oracle7,
            hasScoreCol := true, hasReasoningCol := true }
          (some 30) oracle4).map EvalRow.score = List.replicate 5 (some 4) := by
  refine ⟨evaluate_papers_length, ?_, ?_, ?_⟩ <;> decide

/-- C3: on a snapshot with more rows than the integer limit, the persisted
output of evaluate_papers consists of the first limit rows of the input (the
identifier sequence of the output is that of the first limit input rows),
and the identifier of every input row past the limit is absent from the
output. -/
theorem evaluate_papers_truncates (f : EvalFrame) (n : Nat)
    (rep : Nat → String → Reply) (hn : n < f.rows.length)
    (hnd : (f.rows.map EvalRow.id).Nodup) :
    (evaluate_papers f (some n) rep).map EvalRow.id = (f.rows.take n).map EvalRow.id
    ∧ ∀ (j : Nat) (hj : j < f.rows.length), n ≤ j →
        (f.rows.get ⟨j, hj⟩).id ∉ (evaluate_papers f (some n) rep).map EvalRow.id := by
  have hmap := evaluate_papers_map_id f n rep
  refine ⟨hmap, ?_⟩
  intro j hj hnj
  rw [hmap, List.map_take]
  have hjL : j < (f.rows.map EvalRow.id).length := by simpa using hj
  have hid : (f.rows.get ⟨j, hj⟩).id = (f.rows.map EvalRow.id).get ⟨j, hjL⟩ := by
    simp
  rw [hid]
  have hjd : j - n < ((f.rows.map EvalRow.id).drop n).length := by
    rw [List.length_drop]
    omega
  have hmemdrop : (f.rows.map EvalRow.id).get ⟨j, hjL⟩ ∈ (f.rows.map EvalRow.id).drop n := by
    have e2 : ((f.rows.map EvalRow.id).drop n).get ⟨j - n, hjd⟩
        = (f.rows.map EvalRow.id).get ⟨j, hjL⟩ := by
      simp only [List.get_eq_getElem, List.getElem_drop]
      congr 1
      omega
    rw [← e2]
    exact List.get_mem _ _ _
  have hnd2 : ((f.rows.map EvalRow.id).take n ++ (f.rows.map EvalRow.id).drop n).Nodup := by
    rwa [List.take_append_drop]
  have hdisj := (List.nodup_append.mp hnd2).2.2
  intro hmemtake
  exact hdisj hmemtake hmemdrop

/-- C3 witness: the three-row snapshot with limit 2 satisfies the
hypotheses and the conclusion of the truncation theorem. -/
theorem evaluate_papers_truncates_witness :
    2 < f3.rows.length ∧ (f3.rows.map EvalRow.id).Nodup
    ∧ ((evaluate_papers f3 (some 2) oracle7).map EvalRow.id = (f3.rows.take 2).map EvalRow.id
       ∧ ∀ (j : Nat) (hj : j < f3.rows.length), 2 ≤ j →
          (f3.rows.get ⟨j, hj⟩).id ∉ (evaluate_papers f3 (some 2) oracle7).map EvalRow.id) :=
  ⟨by decide, by decide, evaluate_papers_truncates f3 2 oracle7 (by decide) (by decide)⟩

/-- C4 counterexample: the reply text hello has no numeric token after a
score label, yet the annotation produced by the fallback path carries score
1 rather than the claimed 0 — the 0 default is clamped into the interval
before being stored. -/
theorem fallback_score_default_cex :
    score_search ("hello" : String).data = none
      ∧ (evaluate_abstract (.undecodable "hello")).score ≠ 0 := by
  refine ⟨by decide, by decide⟩

/-- C4 amended: in the fallback pattern-extraction path, a reply text with
no numeric token after a score label yields score 1 (the 0 default is
clamped into the interval from 1 to 10), and a reply text with no quoted
string after a reasoning label yields the fixed placeholder reasoning. -/
theorem fallback_defaults (text : String) :
    (score_search text.data = none → (fallback_parse text).score = 1)
    ∧ (reasoning_search text.data = none →
        (fallback_parse text).reasoning = "Unable to parse reasoning") := by
  constructor
  · intro h
    have h1 : clampScore 0 = 1 := by decide
    simp [fallback_parse, h, h1]
  · intro h
    simp [fallback_parse, h]

/-- C4 witness: the reply text hello matches neither pattern and receives
both defaults. -/
theorem fallback_defaults_witness :
    (score_search ("hello" : String).data = none ∧ (fallback_parse "hello").score = 1)
    ∧ (reasoning_search ("hello" : String).data = none
        ∧ (fallback_parse "hello").reasoning = "Unable to parse reasoning") :=
  ⟨⟨by decide, (fallback_defaults "hello").1 (by decide)⟩,
   ⟨by decide, (fallback_defaults "hello").2 (by decide)⟩⟩

/-- C5 counterexample: a snapshot fully scored by a first run (every score
equal to 7, inside the interval) is changed by a second run whose completion
replies differ — the loop re-evaluates every row instead of skipping scored
ones, so the persisted scores change. -/
theorem evaluate_papers_rescore_cex :
    (evaluate_papers
        { rows := evaluate_papers oneRowFrame none oracle7,
          hasScoreCol := true, hasReasoningCol := true }
        none oracle3).map EvalRow.score
      ≠ (evaluate_papers oneRowFrame none oracle7).map EvalRow.score := by
  decide

/-- C5 amended: a second run of evaluate_papers on the persisted output of a
first run reproduces that output exactly when the completion replies are
unchanged (the oracle is a function of row position and abstract text, both
preserved by the first run); with differing replies the second run
overwrites every scored row, so an already-fully-scored snapshot is not left
unchanged in general. -/
theorem evaluate_papers_idem (f : EvalFrame) (numRows : Option Nat)
    (rep : Nat → String → Reply) :
    evaluate_papers
        { rows := evaluate_papers f numRows rep, hasScoreCol := true, hasReasoningCol := true }
        numRows rep
      = evaluate_papers f numRows rep := by
  cases numRows with
  | none =>
    show evalLoop rep 0 (addMissingCols
        { rows := evaluate_papers f none rep, hasScoreCol := true, hasReasoningCol := true })
      = evaluate_papers f none rep
    rw [addMissingCols_true]
    exact evalLoop_idem rep 0 _
  | some n =>
    have hlen : (evaluate_papers f (some n) rep).length ≤ n := by
      rw [evaluate_papers_length]
      exact Nat.min_le_left n _
    show evalLoop rep 0 (addMissingCols
        { rows := (evaluate_papers f (some n) rep).take n,
          hasScoreCol := true, hasReasoningCol := true })
      = evaluate_papers f (some n) rep
    rw [List.take_of_length_le hlen, addMissingCols_true]
    exact evalLoop_idem rep 0 _

/-- C9: on the non-JSON reply text of the scenario, the fallback parser of
evaluate_abstract extracts score 7 and the quoted reasoning string. -/
theorem fallback_parse_example :
    evaluate_abstract (.undecodable c9text)
      = { score := 7, reasoning := "Strong market fit" } := by
  decide

/-! Helper lemmas about the query model. -/

theorem insertSorted_perm (le : QRow → QRow → Bool) (a : QRow) (l : List QRow) :
    (insertSorted le a l).Perm (a :: l) := by
  induction l with
  | nil => exact List.Perm.refl _
  | cons b l ih =>
    unfold insertSorted
    by_cases h : le a b
    · simp [h]
    · simp only [h, if_false, Bool.false_eq_true]
      exact (List.Perm.cons b ih).trans (List.Perm.swap a b l)

theorem sortRows_perm (le : QRow → QRow → Bool) (l : List QRow) :
    (sortRows le l).Perm l := by
  induction l with
  | nil => exact List.Perm.refl _
  | cons a l ih => exact (insertSorted_perm le a (sortRows le l)).trans (List.Perm.cons a ih)

theorem mem_applySort {hasS : Bool} {sb : SortBy} {so : SortOrder} {l : List QRow} {r : QRow} :
    r ∈ applySort hasS sb so l ↔ r ∈ l := by
  unfold applySort
  split
  · exact Iff.rfl
  · exact (sortRows_perm _ l).mem_iff

theorem applySearch_nil (q : Option String) : applySearch q [] = [] := by
  cases q <;> simp [applySearch]

theorem applyCategory_nil (c : Option String) : applyCategory c [] = [] := by
  cases c <;> simp [applyCategory]

theorem applyMinScore_nil (hasS : Bool) (mn : Option Rat) : applyMinScore hasS mn [] = [] := by
  cases mn <;> simp [applyMinScore]

theorem applyMaxScore_nil (hasS : Bool) (mx : Option Rat) : applyMaxScore hasS mx [] = [] := by
  cases mx <;> simp [applyMaxScore]

theorem applySort_nil (hasS : Bool) (sb : SortBy) (so : SortOrder) : applySort hasS sb so [] = [] := by
  unfold applySort
  split <;> rfl

theorem matchingRows_nil (f : QFrame) (a : QueryArgs) (h : f.rows = []) :
    matchingRows f a = [] := by
  unfold matchingRows
  rw [h, applySearch_nil, applyCategory_nil, applyMinScore_nil, applyMaxScore_nil, applySort_nil]

theorem le_ceil_mul (T P : Nat) (hP : 0 < P) : T ≤ ((T + P - 1) / P) * P := by
  obtain ⟨p, rfl⟩ : ∃ p, P = p + 1 := ⟨P - 1, by omega⟩
  have h1 := Nat.div_add_mod (T + p) (p + 1)
  have h2 : (T + p) % (p + 1) < p + 1 := Nat.mod_lt _ (by omega)
  have h3 : T + (p + 1) - 1 = T + p := by omega
  rw [h3, Nat.mul_comm]
  generalize hA : (p + 1) * ((T + p) / (p + 1)) = A at h1 ⊢
  generalize hB : (T + p) % (p + 1) = B at h1 h2
  omega

theorem pages_sum_aux (P : Nat) (tp : Nat) (l : List QRow) (hl : l.length ≤ tp * P) :
    (((List.range tp).map fun i => ((l.drop (i * P)).take P).length).sum) = l.length := by
  induction tp generalizing l with
  | zero =>
    simp only [Nat.zero_mul, Nat.le_zero] at hl
    simp [hl]
  | succ tp ih =>
    rw [List.range_succ_eq_map, List.map_cons, List.sum_cons, List.map_map]
    have hmap : (List.range tp).map ((fun i => ((l.drop (i * P)).take P).length) ∘ Nat.succ)
        = (List.range tp).map fun i => (((l.drop P).drop (i * P)).take P).length := by
      apply List.map_congr_left
      intro i _
      show ((l.drop (Nat.succ i * P)).take P).length = (((l.drop P).drop (i * P)).take P).length
      have e : Nat.succ i * P = P + i * P := by
        rw [Nat.succ_mul, Nat.add_comm]
      rw [List.drop_drop, e]
    have hlen : (l.drop P).length ≤ tp * P := by
      rw [List.length_drop]
      rw [Nat.succ_mul] at hl
      omega
    rw [hmap, ih (l.drop P) hlen]
    have hmin : (List.take P (List.drop 0 l)).length = min P l.length := by
      rw [List.drop_zero]
      exact List.length_take P l
    rw [Nat.zero_mul, hmin, List.length_drop]
    rw [Nat.succ_mul] at hl
    omega

/-! Claim theorems about the query engine. -/

/-- C6: for every loaded snapshot and every query whose page size lies
between 1 and 100, get_papers reports a total page count equal to the
ceiling of the matching-row count divided by the page size, the page slices
for pages 1 through the total page count partition the matching rows (their
lengths sum to the matching total), and the page after the last returns an
empty paper list. -/
theorem get_papers_pagination (f : QFrame) (a : QueryArgs)
    (h1 : 1 ≤ a.perPage) (h2 : a.perPage ≤ 100) :
    (get_papers f a).totalPages
        = ((matchingRows f a).length + a.perPage - 1) / a.perPage
    ∧ (((List.range (get_papers f a).totalPages).map
          fun i => (get_papers f { a with page := i + 1 }).papers.length).sum)
        = (matchingRows f a).length
    ∧ (get_papers f { a with page := (get_papers f a).totalPages + 1 }).papers = [] := by
  by_cases he : f.rows.isEmpty
  · have hnil : f.rows = [] := List.isEmpty_iff.mp he
    have hm := matchingRows_nil f a hnil
    have hgp : ∀ p : Nat, get_papers f { a with page := p }
        = { papers := [], total := 0, page := p, perPage := a.perPage, totalPages := 0 } := by
      intro p
      simp [get_papers, he]
    have hgpa : get_papers f a
        = { papers := [], total := 0, page := a.page, perPage := a.perPage, totalPages := 0 } := by
      simp [get_papers, he]
    refine ⟨?_, ?_, ?_⟩
    · rw [hgpa, hm]
      show 0 = (([] : List QRow).length + a.perPage - 1) / a.perPage
      simp only [List.length_nil, Nat.zero_add]
      exact (Nat.div_eq_of_lt (by omega)).symm
    · rw [hgpa, hm]
      simp
    · rw [hgpa]
      rw [hgp 1]
  · have he' : f.rows.isEmpty = false := by
      revert he
      cases f.rows.isEmpty <;> simp
    have hgp : ∀ p : Nat, get_papers f { a with page := p }
        = { papers := ((matchingRows f a).drop ((p - 1) * a.perPage)).take a.perPage,
            total := (matchingRows f a).length, page := p, perPage := a.perPage,
            totalPages := ((matchingRows f a).length + a.perPage - 1) / a.perPage } := by
      intro p
      simp only [get_papers, he', Bool.false_eq_true, if_false]
      rfl
    have hgpa : get_papers f a
        = { papers := ((matchingRows f a).drop ((a.page - 1) * a.perPage)).take a.perPage,
            total := (matchingRows f a).length, page := a.page, perPage := a.perPage,
            totalPages := ((matchingRows f a).length + a.perPage - 1) / a.perPage } := by
      simp only [get_papers, he', Bool.false_eq_true, if_false]
    have hceil := le_ceil_mul (matchingRows f a).length a.perPage h1
    refine ⟨?_, ?_, ?_⟩
    · rw [hgpa]
    · have hpg : ∀ i : Nat, (get_papers f { a with page := i + 1 }).papers.length
          = (((matchingRows f a).drop (i * a.perPage)).take a.perPage).length := by
        intro i
        rw [hgp (i + 1)]
        simp
      have hfun : (fun i : Nat => (get_papers f { a with page := i + 1 }).papers.length)
          = fun i : Nat => (((matchingRows f a).drop (i * a.perPage)).take a.perPage).length :=
        funext hpg
      rw [hgpa, hfun]
      exact pages_sum_aux a.perPage _ (matchingRows f a) hceil
    · rw [hgpa, hgp]
      simp only [Nat.add_sub_cancel]
      rw [List.drop_eq_nil_of_le hceil, List.take_nil]

/-- Concrete row, frame and query used as pagination witness. -/
def qRowW : QRow :=
  { id := "w1", title := some "Alpha", categories := some "cs.LG stat.ML",
    abstractText := some "deep things", doi := none, created := some "2024-01-01",
    updated := some "2024-01-02", authors := some "Ada", score := some 6,
    reasoning := some "fine" }

/-- One-row query frame with a score column. -/
def qFrameW : QFrame := { rows := [qRowW], hasScoreCol := true }

/-- Unfiltered query with page size 1. -/
def qArgsW : QueryArgs :=
  { page := 1, perPage := 1, search := none, category := none, minScore := none,
    maxScore := none, sortBy := SortBy.title, sortOrder := SortOrder.asc }

/-- C6 witness: the pagination theorem evaluated on the one-row frame with
page size 1. -/
theorem get_papers_pagination_witness :
    1 ≤ qArgsW.perPage ∧ qArgsW.perPage ≤ 100
    ∧ ((get_papers qFrameW qArgsW).totalPages
          = ((matchingRows qFrameW qArgsW).length + qArgsW.perPage - 1) / qArgsW.perPage
       ∧ (((List.range (get_papers qFrameW qArgsW).totalPages).map
             fun i => (get_papers qFrameW { qArgsW with page := i + 1 }).papers.length).sum)
           = (matchingRows qFrameW qArgsW).length
       ∧ (get_papers qFrameW
            { qArgsW with page := (get_papers qFrameW qArgsW).totalPages + 1 }).papers = []) :=
  ⟨by decide, by decide, get_papers_pagination qFrameW qArgsW (by decide) (by decide)⟩

/-- C7 amended: when the loaded snapshot has a score column, every row whose
score cell is missing is excluded from the returned papers whenever a
minimum or maximum score bound is supplied; when the snapshot has no score
column the bounds are silently ignored, so scoreless rows are returned. -/
theorem get_papers_excludes_missing_scores (f : QFrame) (a : QueryArgs) (r : QRow)
    (hs : f.hasScoreCol = true)
    (hb : a.minScore ≠ none ∨ a.maxScore ≠ none)
    (hr : r.score = none) :
    r ∉ (get_papers f a).papers := by
  intro hmem
  have hmem2 : r ∈ matchingRows f a := by
    by_cases he : f.rows.isEmpty
    · simp [get_papers, he] at hmem
    · have he' : f.rows.isEmpty = false := by
        revert he
        cases f.rows.isEmpty <;> simp
      simp only [get_papers, he', Bool.false_eq_true, if_false] at hmem
      exact List.mem_of_mem_drop (List.mem_of_mem_take hmem)
  unfold matchingRows at hmem2
  have hmem3 := mem_applySort.mp hmem2
  rcases hmax : a.maxScore with _ | m
  · have hmn : ∃ m, a.minScore = some m := by
      rcases hmn2 : a.minScore with _ | m
      · rw [hmn2, hmax] at hb
        simp at hb
      · exact ⟨m, rfl⟩
    obtain ⟨m, hmn⟩ := hmn
    rw [hmax] at hmem3
    simp only [applyMaxScore] at hmem3
    rw [hmn, hs] at hmem3
    simp only [applyMinScore, if_true] at hmem3
    have hpred := (List.mem_filter.mp hmem3).2
    rw [hr] at hpred
    simp at hpred
  · rw [hmax, hs] at hmem3
    simp only [applyMaxScore, if_true] at hmem3
    have hpred := (List.mem_filter.mp hmem3).2
    rw [hr] at hpred
    simp at hpred

/-- Scoreless row used by the score-filter claims. -/
def qRowM : QRow :=
  { id := "m1", title := some "Beta", categories := some "cs.CL",
    abstractText := some "words", doi := none, created := some "2024-02-01",
    updated := none, authors := some "Bo", score := none, reasoning := none }

/-- One-row frame with a score column whose only row is scoreless. -/
def qFrameM : QFrame := { rows := [qRowM], hasScoreCol := true }

/-- Query supplying a minimum-score bound. -/
def qArgsM : QueryArgs :=
  { page := 1, perPage := 20, search := none, category := none, minScore := some 5,
    maxScore := none, sortBy := SortBy.created, sortOrder := SortOrder.desc }

/-- C7 witness: with the score column present and a minimum bound supplied,
the scoreless row is excluded. -/
theorem get_papers_excludes_missing_scores_witness :
    qFrameM.hasScoreCol = true ∧ (qArgsM.minScore ≠ none ∨ qArgsM.maxScore ≠ none)
    ∧ qRowM.score = none ∧ qRowM ∉ (get_papers qFrameM qArgsM).papers :=
  ⟨rfl, Or.inl (by decide), rfl,
    get_papers_excludes_missing_scores qFrameM qArgsM qRowM rfl (Or.inl (by decide)) rfl⟩

/-- One-row frame without a score column. -/
def qFrameNC : QFrame := { rows := [qRowM], hasScoreCol := false }

/-- C7 counterexample: on a snapshot whose tabular file has no score column,
a query supplying a minimum score bound still returns the row lacking a
score — the filter is skipped entirely, contradicting the claimed
exclusion. -/
theorem get_papers_missing_score_col_cex :
    qRowM.score = none ∧ qArgsM.minScore = some 5
      ∧ qRowM ∈ (get_papers qFrameNC qArgsM).papers := by
  refine ⟨rfl, rfl, ?_⟩
  decide

/-! Helper predicates and claim theorems about the ingestion run. -/

/-- Watermark-write discriminator. -/
def isWatermarkW : Effect → Bool
  | .watermarkWrite _ => true
  | _ => false

/-- CSV-snapshot-write discriminator. -/
def isCsvW : Effect → Bool
  | .snapshotCsvWrite _ => true
  | _ => false

/-- JSON-snapshot-write discriminator. -/
def isJsonW : Effect → Bool
  | .snapshotJsonWrite _ => true
  | _ => false

/-- C8: the fetch window is from = max(watermark, today minus the lookback
bound) and until = today; a watermark 10 days in the past with a 7-day bound
yields a window starting 7 days back; and every run — whatever the fetches
return — writes the watermark exactly once, with the value until = today. -/
theorem get_date_range_and_watermark (w today : Int)
    (fetch : String → Int → Int → List RawPaper) :
    get_date_range (some w) today = (max w (today - MAX_DAYS), today)
    ∧ (get_date_range (some (today - 10)) today).1 = today - 7
    ∧ (mainRun fetch (some w) today).filter isWatermarkW = [Effect.watermarkWrite today] := by
  refine ⟨rfl, ?_, ?_⟩
  · show max (today - 10) (today - MAX_DAYS) = today - 7
    rw [show MAX_DAYS = (7 : Int) from rfl, max_eq_right (by omega)]
  · have hwf : ∀ ps : List RawPaper, (save_results ps).filter isWatermarkW = [] := by
      intro ps
      unfold save_results
      split <;> simp [isWatermarkW]
    simp only [mainRun]
    rw [List.filter_append, hwf]
    simp [isWatermarkW, get_date_range]

/-- C10 counterexample: a run in which every category fetch returns nothing
performs zero snapshot writes, not the claimed one — save_results returns
before writing when the merged record list is empty. -/
theorem mainRun_empty_no_snapshot_cex :
    ¬ ((mainRun (fun _ _ _ => ([] : List RawPaper)) none 0).filter isCsvW).length = 1 := by
  decide

/-- C10 amended: every ingestion run writes the watermark exactly once; the
CSV snapshot (and its JSON companion) is written exactly once when the
merged fetch results are nonempty and zero times when every category
returned nothing, in which case any prior snapshot is left in place. -/
theorem mainRun_write_effects (fetch : String → Int → Int → List RawPaper)
    (w : Option Int) (today : Int) :
    ((mainRun fetch w today).filter isWatermarkW).length = 1
    ∧ ((mainRun fetch w today).filter isCsvW).length
        = (if ((CATEGORIES.map fun c =>
                fetch c (get_date_range w today).1 (get_date_range w today).2).flatten).isEmpty
           then 0 else 1)
    ∧ ((mainRun fetch w today).filter isJsonW).length
        = (if ((CATEGORIES.map fun c =>
                fetch c (get_date_range w today).1 (get_date_range w today).2).flatten).isEmpty
           then 0 else 1) := by
  simp only [mainRun, save_results]
  by_cases h : ((CATEGORIES.map fun c =>
      fetch c (get_date_range w today).1 (get_date_range w today).2).flatten).isEmpty
  · simp [h, isWatermarkW, isCsvW, isJsonW]
  · simp [h, isWatermarkW, isCsvW, isJsonW]

end ArxivScraper
